import Mathlib

/-!
Verification of the registry update protocol of `cmd/helm/repo_add.go`
(function `addRepository` and its collaborators).

The orchestration (`addRepository`) is embedded directly from the source.
The collaborators that live outside the source unit (`repo.LoadRepositoriesFile`,
`RepoFile.Has`, `RepoFile.Update`, `RepoFile.WriteFile`, `helmpath.Home`,
`flock.TryLockContext`, `ChartRepository.DownloadIndexFile`) are modelled from
the specification, each marked as such in its doc comment.

External non-determinism (I/O failures, network results, lock contention, a
concurrent process committing a change to the registry file) is passed in as an
`Oracle` record, so every run is a pure function of the arguments, the oracle
and the starting `World`.
-/

/-- A `repo.Entry` of the registry: one registered chart repository.
Field order mirrors the struct literal built in `addRepository`. -/
structure Entry where
  name : String
  cache : String
  url : String
  username : String
  password : String
  certFile : String
  keyFile : String
  caFile : String
deriving DecidableEq, Repr

/-- A `repo.RepoFile`: the parsed registry, an ordered list of entries. -/
structure RepoFile where
  repositories : List Entry
deriving DecidableEq, Repr

/-- Modelled from the spec: `helmpath.Home` (not under `src/`), the helm home
directory from which the registry file path and the cache paths are derived. -/
structure Home where
  path : String
deriving DecidableEq, Repr

/-- Modelled from the spec: `Home.RepositoryFile()`, the path of the shared
registry file. -/
def Home.repositoryFile (h : Home) : String :=
  h.path ++ "/repository/repositories.yaml"

/-- Modelled from the spec: `Home.Cache()`, the index cache directory. -/
def Home.cacheDir (h : Home) : String :=
  h.path ++ "/repository/cache"

/-- Modelled from the spec: `Home.CacheIndex(name)`, the cache file path
"derived deterministically from `name`". -/
def Home.cacheIndex (h : Home) (name : String) : String :=
  h.cacheDir ++ "/" ++ name ++ "-index.yaml"

/-- The errors `addRepository` can return, tagged by the `return` site that
produces them; message payloads carry the formatted text where the source
formats one. -/
inductive Err where
  | persistence (msg : String)
  | duplicateName (msg : String)
  | newRepo (msg : String)
  | notValidRepo (msg : String)
  | lock (msg : String)
  | contextDeadlineExceeded
  | write (msg : String)
deriving DecidableEq, Repr

/-- The duplicate-name message formatted by
`fmt.Errorf("repository name (%s) already exists, please specify a different name", name)`. -/
def duplicateMsg (name : String) : String :=
  "repository name (" ++ name ++ ") already exists, please specify a different name"

/-- The download-failure message formatted by
`fmt.Errorf("Looks like %q is not a valid chart repository or cannot be reached: %s", url, err)`. -/
def notValidRepoMsg (url msg : String) : String :=
  "Looks like \"" ++ url ++ "\" is not a valid chart repository or cannot be reached: " ++ msg

/-- The file system as seen through the registry file: a map from path to the
parsed content of the file stored there (`none` = no file at that path). -/
def FS : Type := String → Option RepoFile

/-- Read the file at `p`. -/
def FS.read (fs : FS) (p : String) : Option RepoFile := fs p

/-- Create or overwrite the file at `p` in one step. -/
def FS.writeRaw (fs : FS) (p : String) (c : RepoFile) : FS :=
  fun q => if q = p then some c else fs q

/-- Delete the file at `p`. -/
def FS.remove (fs : FS) (p : String) : FS :=
  fun q => if q = p then none else fs q

/-- Atomically rename `src` over `dst` (no-op when `src` does not exist). -/
def FS.rename (fs : FS) (src dst : String) : FS :=
  match fs.read src with
  | none => fs
  | some c => (fs.remove src).writeRaw dst c

/-- A file system with no files. -/
def emptyFS : FS := fun _ => none

/-- The temporary path used by the write-to-temp-then-rename technique. -/
def tempPath (p : String) : String := p ++ ".tmp"

/-- Modelled from the spec: first phase of `RepoFile.WriteFile` (pkg/repo, not
under `src/`): serialize the registry to a temporary file next to the target;
the target itself is untouched by this phase. -/
def writeFileTempStep (fs : FS) (f : RepoFile) (p : String) : FS :=
  fs.writeRaw (tempPath p) f

/-- Modelled from the spec: second phase of `RepoFile.WriteFile`: atomically
rename the temporary file over the target. -/
def writeFileRenameStep (fs : FS) (p : String) : FS :=
  fs.rename (tempPath p) p

/-- Modelled from the spec: `RepoFile.WriteFile(path, perm)` (pkg/repo, not
under `src/`): "write-to-temp-then-rename is the required technique". The
permission mode is accepted (the source passes `0644`) but the model does not
track file modes. -/
def RepoFile.writeFile (f : RepoFile) (fs : FS) (p : String) (_perm : Nat) : FS :=
  writeFileRenameStep (writeFileTempStep fs f p) p

/-- Modelled from the spec: `RepoFile.Has(name)` (pkg/repo, not under `src/`):
existence check by key. -/
def RepoFile.has (f : RepoFile) (n : String) : Bool :=
  f.repositories.any (fun x => x.name == n)

/-- Modelled from the spec: the loop body of `RepoFile.Update` (pkg/repo, not
under `src/`): replace the first entry whose `name` matches, else append,
keeping untouched entries in place. -/
def updateList : List Entry → Entry → List Entry
  | [], e => [e]
  | x :: xs, e => if x.name == e.name then e :: xs else x :: updateList xs e

/-- Modelled from the spec: `RepoFile.Update(entry)`: insert-or-replace by
`name`, order of untouched entries stable. -/
def RepoFile.update (f : RepoFile) (e : Entry) : RepoFile :=
  ⟨updateList f.repositories e⟩

/-- The registry as parsed from the file at `path`: a missing file parses as an
empty registry (first-run case). -/
def loadedRegistry (fs : FS) (path : String) : RepoFile :=
  match fs.read path with
  | some f => f
  | none => ⟨[]⟩

/-- Modelled from the spec: `repo.LoadRepositoriesFile(path)` (pkg/repo, not
under `src/`): "parses the registry file; if the file does not exist, returns
an empty Registry rather than an error (first-run case)". Other I/O failures
(the spec's PersistenceError) are injected through `ioErr`. -/
def loadRepositoriesFile (ioErr : Option String) (fs : FS) (path : String) :
    Except Err RepoFile :=
  match ioErr with
  | some m => .error (.persistence m)
  | none => .ok (loadedRegistry fs path)

/-- Modelled from the spec: the poll loop inside `flock.TryLockContext`
(gofrs/flock, not under `src/`). The external contention is summarized by
`free`, the first instant (seconds after the call) at which the lock is no
longer held by another process; the loop tries at times `t, t+retry, ...` and
the context deadline fires at `timeout` seconds. -/
def tryLockPoll : Nat → Nat → Nat → Nat → Nat → Bool × Option Err
  | 0, _, _, _, _ => (false, some .contextDeadlineExceeded)
  | fuel + 1, t, retry, free, timeout =>
    if timeout ≤ t then (false, some .contextDeadlineExceeded)
    else if free ≤ t then (true, none)
    else tryLockPoll fuel (t + retry) retry free timeout

/-- Modelled from the spec: `flock.TryLockContext(lockCtx, retry)` with a
context carrying a `timeout`-second deadline. Per the spec the outcomes are:
acquired, deadline exceeded while waiting, or a non-contention mechanism
failure (`fault`). -/
def tryLockContext (timeout retry free : Nat) (fault : Option Err) :
    Bool × Option Err :=
  match fault with
  | some e => (false, some e)
  | none => tryLockPoll (timeout + 1) 0 retry free timeout

/-- The constant `30*time.Second` passed to `context.WithTimeout` in
`addRepository` (in seconds). -/
def lockTimeoutSeconds : Nat := 30

/-- The constant `time.Second` passed to `fileLock.TryLockContext` in
`addRepository` (in seconds). -/
def lockRetryIntervalSeconds : Nat := 1

/-- The world an invocation runs against: the file system holding the registry
file plus the index cache area (cache path to cached index content). -/
structure World where
  fs : FS
  cache : List (String × String)

/-- Results of the external collaborator calls made by one invocation of
`addRepository`, fixed up front so a run is a pure function.
`concurrentEdit` is the registry content committed by another process between
the pre-check load and our lock acquisition (the race the spec documents);
it is applied where it can affect this invocation: at the post-lock reload. -/
structure Oracle where
  load1Err : Option String
  newRepoErr : Option String
  download : Except String String
  lockFault : Option Err
  lockFreeAt : Nat
  concurrentEdit : Option RepoFile
  load2Err : Option String
  writeErr : Option String

/-- Observable steps of one invocation, in occurrence order. -/
inductive Event where
  | loadRegistry
  | downloadIndex
  | lockAttempted
  | lockAcquired
  | writeRegistry
  | lockReleased
deriving DecidableEq, Repr

/-- Outcome of one invocation: the returned value, the final world, and the
trace of observable steps. -/
structure RunResult where
  result : Except Err Unit
  world : World
  trace : List Event

/-- The candidate entry `c := repo.Entry{Name: name, Cache: cif, URL: url, ...}`
built by `addRepository`. -/
def candidateEntry (name url username password : String) (home : Home)
    (certFile keyFile caFile : String) : Entry :=
  ⟨name, home.cacheIndex name, url, username, password, certFile, keyFile, caFile⟩

/-- The file system against which the post-lock reload runs: the starting one,
or the one left by the concurrent process's committed change. -/
def postLockFS (o : Oracle) (fs : FS) (home : Home) : FS :=
  match o.concurrentEdit with
  | some g => fs.writeRaw home.repositoryFile g
  | none => fs

/-- The tail of `addRepository` from the lock call on, with the lock call's
result as an explicit argument. Mirrors the source: the unlock is deferred
only when `err == nil && locked`; when `err != nil` the error is returned;
otherwise the registry file is re-read, updated and written back. -/
def addRepositoryLocked (c : Entry) (home : Home) (o : Oracle) (w1 : World)
    (lockRes : Bool × Option Err) : RunResult :=
  match lockRes.2 with
  | some e => ⟨.error e, w1, [.loadRegistry, .downloadIndex, .lockAttempted]⟩
  | none =>
    match loadRepositoriesFile o.load2Err (postLockFS o w1.fs home) home.repositoryFile with
    | .error e =>
        ⟨.error e, ⟨postLockFS o w1.fs home, w1.cache⟩,
          [.loadRegistry, .downloadIndex, .lockAttempted] ++
            (if lockRes.1 then [Event.lockAcquired] else []) ++ [Event.loadRegistry] ++
            (if lockRes.1 then [Event.lockReleased] else [])⟩
    | .ok f2 =>
      match o.writeErr with
      | some m =>
          ⟨.error (.write m),
            ⟨writeFileTempStep (postLockFS o w1.fs home) (f2.update c) home.repositoryFile,
              w1.cache⟩,
            [.loadRegistry, .downloadIndex, .lockAttempted] ++
              (if lockRes.1 then [Event.lockAcquired] else []) ++
              [Event.loadRegistry, Event.writeRegistry] ++
              (if lockRes.1 then [Event.lockReleased] else [])⟩
      | none =>
          ⟨.ok (),
            ⟨(f2.update c).writeFile (postLockFS o w1.fs home) home.repositoryFile 0o644,
              w1.cache⟩,
            [.loadRegistry, .downloadIndex, .lockAttempted] ++
              (if lockRes.1 then [Event.lockAcquired] else []) ++
              [Event.loadRegistry, Event.writeRegistry] ++
              (if lockRes.1 then [Event.lockReleased] else [])⟩

/-- The embedding of `addRepository` from `cmd/helm/repo_add.go`:
load the registries file; reject a duplicate name when `noUpdate`; build the
candidate entry; construct the chart repository; download the index into the
cache (failure aborts with the "not a valid chart repository" error; success
leaves the fetched index in the cache); lock the registry file with a
30-second context and 1-second retry; re-read the registries file; `Update`;
`WriteFile` with mode `0644`. -/
def addRepository (name url username password : String) (home : Home)
    (certFile keyFile caFile : String) (noUpdate : Bool)
    (o : Oracle) (w : World) : RunResult :=
  match loadRepositoriesFile o.load1Err w.fs home.repositoryFile with
  | .error e => ⟨.error e, w, [.loadRegistry]⟩
  | .ok f =>
    if noUpdate && f.has name then
      ⟨.error (.duplicateName (duplicateMsg name)), w, [.loadRegistry]⟩
    else
      match o.newRepoErr with
      | some m => ⟨.error (.newRepo m), w, [.loadRegistry]⟩
      | none =>
        match o.download with
        | .error m =>
            ⟨.error (.notValidRepo (notValidRepoMsg url m)), w,
              [.loadRegistry, .downloadIndex]⟩
        | .ok idx =>
            addRepositoryLocked
              (candidateEntry name url username password home certFile keyFile caFile)
              home o ⟨w.fs, (home.cacheIndex name, idx) :: w.cache⟩
              (tryLockContext lockTimeoutSeconds lockRetryIntervalSeconds
                o.lockFreeAt o.lockFault)

/-- Scan of a trace checking that every registry write happens while the lock
is held (`locked` is the lock state entering the scan). -/
def writesOnlyWhileLocked : List Event → Bool → Bool
  | [], _ => true
  | Event.lockAcquired :: es, _ => writesOnlyWhileLocked es true
  | Event.lockReleased :: es, _ => writesOnlyWhileLocked es false
  | Event.writeRegistry :: es, locked => locked && writesOnlyWhileLocked es locked
  | _ :: es, locked => writesOnlyWhileLocked es locked

/-- Scan of a trace checking that no index download happens at or after the
first lock call: the network fetch completes before locking is attempted. -/
def fetchBeforeLockAttempt : List Event → Bool
  | [] => true
  | Event.lockAttempted :: es => es.all (fun e => !(e == Event.downloadIndex))
  | _ :: es => fetchBeforeLockAttempt es

/-- Scan of a trace checking that while the lock is held only registry reloads
and registry writes happen — in particular never a network fetch. -/
def lockedSectionOnlyReloadWrite : List Event → Bool → Bool
  | [], _ => true
  | Event.lockAcquired :: es, _ => lockedSectionOnlyReloadWrite es true
  | Event.lockReleased :: es, _ => lockedSectionOnlyReloadWrite es false
  | e :: es, true => (e == Event.loadRegistry || e == Event.writeRegistry) &&
      lockedSectionOnlyReloadWrite es true
  | _ :: es, false => lockedSectionOnlyReloadWrite es false

/-! Concrete fixtures used by the witness theorems. -/

/-- A concrete helm home. -/
def homeW : Home := ⟨"/h"⟩

/-- A pre-existing registry entry named "stable". -/
def entryOld : Entry :=
  ⟨"stable", "/h/repository/cache/stable-index.yaml", "https://charts.example.com",
    "", "", "", "", ""⟩

/-- A file system whose registry file holds exactly `entryOld`. -/
def fsOne : FS := FS.writeRaw emptyFS homeW.repositoryFile ⟨[entryOld]⟩

/-- A world with no registry file and an empty cache. -/
def wEmpty : World := ⟨emptyFS, []⟩

/-- A world whose registry file holds exactly `entryOld`. -/
def wOne : World := ⟨fsOne, []⟩

/-- An oracle where every collaborator call succeeds immediately. -/
def oBenign : Oracle := ⟨none, none, Except.ok "apiVersion: v1", none, 0, none, none, none⟩

/-- An oracle where a concurrent process commits `entryOld` before our lock
acquisition. -/
def oEdit : Oracle :=
  ⟨none, none, Except.ok "apiVersion: v1", none, 0, some ⟨[entryOld]⟩, none, none⟩

/-- An oracle where another process holds the lock for 60 seconds. -/
def oTimeout : Oracle := ⟨none, none, Except.ok "apiVersion: v1", none, 60, none, none, none⟩

/-- An oracle where the index download fails. -/
def oNet : Oracle := ⟨none, none, Except.error "connection refused", none, 0, none, none, none⟩

/-- An oracle where the registry write is interrupted after the temp file is
created and before the rename. -/
def oWriteFail : Oracle :=
  ⟨none, none, Except.ok "apiVersion: v1", none, 0, none, none, some "disk full"⟩

/-! ### File-system lemmas -/

theorem FS.read_writeRaw_self (fs : FS) (p : String) (c : RepoFile) :
    (fs.writeRaw p c).read p = some c := by
  simp [FS.read, FS.writeRaw]

theorem FS.read_writeRaw_ne (fs : FS) (p q : String) (c : RepoFile) (h : q ≠ p) :
    (fs.writeRaw p c).read q = fs.read q := by
  simp [FS.read, FS.writeRaw, h]

theorem FS.read_remove_ne (fs : FS) (p q : String) (h : q ≠ p) :
    (fs.remove p).read q = fs.read q := by
  simp [FS.read, FS.remove, h]

theorem tempPath_ne (p : String) : tempPath p ≠ p := by
  intro h
  have hlen := congrArg String.length h
  rw [tempPath, String.length_append] at hlen
  have h4 : ".tmp".length = 4 := rfl
  omega

theorem writeFileTempStep_read (fs : FS) (f : RepoFile) (p : String) :
    (writeFileTempStep fs f p).read p = fs.read p :=
  FS.read_writeRaw_ne fs (tempPath p) p f (Ne.symm (tempPath_ne p))

theorem writeFile_read (f : RepoFile) (fs : FS) (p : String) (perm : Nat) :
    (f.writeFile fs p perm).read p = some f := by
  unfold RepoFile.writeFile writeFileRenameStep writeFileTempStep
  rw [FS.rename, FS.read_writeRaw_self]
  exact FS.read_writeRaw_self _ p f

/-! ### Lock-model lemmas -/

theorem tryLockPoll_cases (fuel : Nat) : ∀ t retry free timeout : Nat,
    tryLockPoll fuel t retry free timeout = (true, none) ∨
    tryLockPoll fuel t retry free timeout = (false, some Err.contextDeadlineExceeded) := by
  induction fuel with
  | zero => intro t retry free timeout; right; rfl
  | succ n ih =>
    intro t retry free timeout
    simp only [tryLockPoll]
    split
    · right; rfl
    · split
      · left; rfl
      · exact ih (t + retry) retry free timeout

theorem tryLockPoll_timeout (fuel : Nat) : ∀ t retry free timeout : Nat,
    timeout ≤ free →
    tryLockPoll fuel t retry free timeout = (false, some Err.contextDeadlineExceeded) := by
  induction fuel with
  | zero => intro t retry free timeout _; rfl
  | succ n ih =>
    intro t retry free timeout h
    simp only [tryLockPoll]
    split
    · rfl
    · rename_i h1
      have h2 : ¬ free ≤ t := fun hf => h1 (le_trans h hf)
      simp only [h2, if_false]
      exact ih (t + retry) retry free timeout h

theorem tryLockContext_cases (timeout retry free : Nat) (fault : Option Err) :
    tryLockContext timeout retry free fault = (true, none) ∨
    ∃ e, tryLockContext timeout retry free fault = (false, some e) := by
  cases fault with
  | some e => right; exact ⟨e, rfl⟩
  | none =>
    rcases tryLockPoll_cases (timeout + 1) 0 retry free timeout with h | h
    · left; exact h
    · right; exact ⟨Err.contextDeadlineExceeded, h⟩

theorem tryLockContext_timeout (timeout retry free : Nat) (h : timeout ≤ free) :
    tryLockContext timeout retry free none =
      (false, some Err.contextDeadlineExceeded) :=
  tryLockPoll_timeout (timeout + 1) 0 retry free timeout h

/-! ### Update lemmas -/

theorem updateList_filter (e : Entry) : ∀ l : List Entry,
    (l.filter (fun x => x.name == e.name)).length ≤ 1 →
    (updateList l e).filter (fun x => x.name == e.name) = [e] := by
  intro l
  induction l with
  | nil => intro _; simp [updateList]
  | cons x xs ih =>
    intro h
    by_cases hx : (x.name == e.name) = true
    · rw [List.filter_cons_of_pos (p := fun y : Entry => y.name == e.name) hx,
        List.length_cons] at h
      have h0 : List.filter (fun y => y.name == e.name) xs = [] :=
        List.length_eq_zero.mp (by omega)
      simp [updateList, hx, h0]
    · have hx0 : (x.name == e.name) = false := by
        rw [← Bool.not_eq_true]; exact hx
      rw [List.filter_cons_of_neg (p := fun y : Entry => y.name == e.name) hx] at h
      simp only [updateList, hx0, Bool.false_eq_true, if_false]
      rw [List.filter_cons_of_neg (p := fun y : Entry => y.name == e.name) hx]
      exact ih h

theorem postLockFS_of_no_edit (o : Oracle) (fs : FS) (home : Home)
    (h : o.concurrentEdit = none) : postLockFS o fs home = fs := by
  simp [postLockFS, h]

theorem postLockFS_of_edit (o : Oracle) (fs : FS) (home : Home) (g : RepoFile)
    (h : o.concurrentEdit = some g) :
    loadedRegistry (postLockFS o fs home) home.repositoryFile = g := by
  simp [postLockFS, h, loadedRegistry, FS.read_writeRaw_self]

/-! ### Run characterization -/

theorem addRepositoryLocked_ok (c : Entry) (home : Home) (o : Oracle) (w1 : World)
    (h6 : o.load2Err = none) (h7 : o.writeErr = none) :
    addRepositoryLocked c home o w1 (true, none) =
      ⟨.ok (),
        ⟨((loadedRegistry (postLockFS o w1.fs home) home.repositoryFile).update c).writeFile
            (postLockFS o w1.fs home) home.repositoryFile 0o644,
          w1.cache⟩,
        [.loadRegistry, .downloadIndex, .lockAttempted, .lockAcquired,
          .loadRegistry, .writeRegistry, .lockReleased]⟩ := by
  simp [addRepositoryLocked, loadRepositoriesFile, h6, h7]

theorem addRepository_run_ok (name url username password : String) (home : Home)
    (certFile keyFile caFile : String) (noUpdate : Bool) (o : Oracle) (w : World)
    (idx : String)
    (h1 : o.load1Err = none)
    (h2 : (noUpdate && (loadedRegistry w.fs home.repositoryFile).has name) = false)
    (h3 : o.newRepoErr = none)
    (h4 : o.download = Except.ok idx)
    (h5 : tryLockContext lockTimeoutSeconds lockRetryIntervalSeconds o.lockFreeAt o.lockFault
            = (true, none))
    (h6 : o.load2Err = none)
    (h7 : o.writeErr = none) :
    addRepository name url username password home certFile keyFile caFile noUpdate o w =
      ⟨.ok (),
        ⟨((loadedRegistry (postLockFS o w.fs home) home.repositoryFile).update
              (candidateEntry name url username password home certFile keyFile caFile)).writeFile
            (postLockFS o w.fs home) home.repositoryFile 0o644,
          (home.cacheIndex name, idx) :: w.cache⟩,
        [.loadRegistry, .downloadIndex, .lockAttempted, .lockAcquired,
          .loadRegistry, .writeRegistry, .lockReleased]⟩ := by
  simp only [addRepository, loadRepositoriesFile, h1, h2, h3, h4, h5, Bool.false_eq_true,
    if_false]
  exact addRepositoryLocked_ok _ _ _ _ h6 h7

theorem addRepository_shape (name url username password : String) (home : Home)
    (certFile keyFile caFile : String) (noUpdate : Bool) (o : Oracle) (w : World) :
    (∃ m, o.load1Err = some m ∧
      addRepository name url username password home certFile keyFile caFile noUpdate o w =
        ⟨.error (.persistence m), w, [.loadRegistry]⟩) ∨
    (o.load1Err = none ∧
      (noUpdate && (loadedRegistry w.fs home.repositoryFile).has name) = true ∧
      addRepository name url username password home certFile keyFile caFile noUpdate o w =
        ⟨.error (.duplicateName (duplicateMsg name)), w, [.loadRegistry]⟩) ∨
    (∃ m, o.newRepoErr = some m ∧
      addRepository name url username password home certFile keyFile caFile noUpdate o w =
        ⟨.error (.newRepo m), w, [.loadRegistry]⟩) ∨
    (∃ m, o.download = .error m ∧
      addRepository name url username password home certFile keyFile caFile noUpdate o w =
        ⟨.error (.notValidRepo (notValidRepoMsg url m)), w,
          [.loadRegistry, .downloadIndex]⟩) ∨
    (∃ idx e, o.download = .ok idx ∧
      tryLockContext lockTimeoutSeconds lockRetryIntervalSeconds o.lockFreeAt o.lockFault
        = (false, some e) ∧
      addRepository name url username password home certFile keyFile caFile noUpdate o w =
        ⟨.error e, ⟨w.fs, (home.cacheIndex name, idx) :: w.cache⟩,
          [.loadRegistry, .downloadIndex, .lockAttempted]⟩) ∨
    (∃ idx m, o.download = .ok idx ∧
      tryLockContext lockTimeoutSeconds lockRetryIntervalSeconds o.lockFreeAt o.lockFault
        = (true, none) ∧
      o.load2Err = some m ∧
      addRepository name url username password home certFile keyFile caFile noUpdate o w =
        ⟨.error (.persistence m),
          ⟨postLockFS o w.fs home, (home.cacheIndex name, idx) :: w.cache⟩,
          [.loadRegistry, .downloadIndex, .lockAttempted, .lockAcquired,
            .loadRegistry, .lockReleased]⟩) ∨
    (∃ idx m, o.download = .ok idx ∧
      tryLockContext lockTimeoutSeconds lockRetryIntervalSeconds o.lockFreeAt o.lockFault
        = (true, none) ∧
      o.load2Err = none ∧ o.writeErr = some m ∧
      addRepository name url username password home certFile keyFile caFile noUpdate o w =
        ⟨.error (.write m),
          ⟨writeFileTempStep (postLockFS o w.fs home)
              ((loadedRegistry (postLockFS o w.fs home) home.repositoryFile).update
                (candidateEntry name url username password home certFile keyFile caFile))
              home.repositoryFile,
            (home.cacheIndex name, idx) :: w.cache⟩,
          [.loadRegistry, .downloadIndex, .lockAttempted, .lockAcquired,
            .loadRegistry, .writeRegistry, .lockReleased]⟩) ∨
    (∃ idx, o.download = .ok idx ∧
      tryLockContext lockTimeoutSeconds lockRetryIntervalSeconds o.lockFreeAt o.lockFault
        = (true, none) ∧
      o.load2Err = none ∧ o.writeErr = none ∧
      addRepository name url username password home certFile keyFile caFile noUpdate o w =
        ⟨.ok (),
          ⟨((loadedRegistry (postLockFS o w.fs home) home.repositoryFile).update
                (candidateEntry name url username password home certFile keyFile caFile)).writeFile
              (postLockFS o w.fs home) home.repositoryFile 0o644,
            (home.cacheIndex name, idx) :: w.cache⟩,
          [.loadRegistry, .downloadIndex, .lockAttempted, .lockAcquired,
            .loadRegistry, .writeRegistry, .lockReleased]⟩) := by
  cases hl : o.load1Err with
  | some m =>
    refine Or.inl ⟨m, rfl, ?_⟩
    simp [addRepository, loadRepositoriesFile, hl]
  | none =>
    by_cases hd : (noUpdate && (loadedRegistry w.fs home.repositoryFile).has name) = true
    · refine Or.inr (Or.inl ⟨rfl, hd, ?_⟩)
      simp [addRepository, loadRepositoriesFile, hl, hd]
    · have hd0 : (noUpdate && (loadedRegistry w.fs home.repositoryFile).has name) = false := by
        rw [← Bool.not_eq_true]; exact hd
      cases hn : o.newRepoErr with
      | some m =>
        refine Or.inr (Or.inr (Or.inl ⟨m, rfl, ?_⟩))
        simp [addRepository, loadRepositoriesFile, hl, hd0, hn]
      | none =>
        cases hdl : o.download with
        | error m =>
          refine Or.inr (Or.inr (Or.inr (Or.inl ⟨m, rfl, ?_⟩)))
          simp [addRepository, loadRepositoriesFile, hl, hd0, hn, hdl]
        | ok idx =>
          rcases tryLockContext_cases lockTimeoutSeconds lockRetryIntervalSeconds
              o.lockFreeAt o.lockFault with hc | ⟨e, hc⟩
          · cases h2 : o.load2Err with
            | some m =>
              refine Or.inr (Or.inr (Or.inr (Or.inr (Or.inr (Or.inl ⟨idx, m, rfl, hc, rfl, ?_⟩)))))
              simp [addRepository, addRepositoryLocked, loadRepositoriesFile,
                hl, hd0, hn, hdl, hc, h2]
            | none =>
              cases hw : o.writeErr with
              | some m =>
                refine Or.inr (Or.inr (Or.inr (Or.inr (Or.inr (Or.inr (Or.inl
                  ⟨idx, m, rfl, hc, rfl, rfl, ?_⟩))))))
                simp [addRepository, addRepositoryLocked, loadRepositoriesFile,
                  hl, hd0, hn, hdl, hc, h2, hw]
              | none =>
                refine Or.inr (Or.inr (Or.inr (Or.inr (Or.inr (Or.inr (Or.inr
                  ⟨idx, rfl, hc, rfl, rfl, ?_⟩))))))
                simp [addRepository, addRepositoryLocked, loadRepositoriesFile,
                  hl, hd0, hn, hdl, hc, h2, hw]
          · refine Or.inr (Or.inr (Or.inr (Or.inr (Or.inl ⟨idx, e, rfl, hc, ?_⟩))))
            simp [addRepository, addRepositoryLocked, loadRepositoriesFile,
              hl, hd0, hn, hdl, hc]

/-! ### Claim theorems -/

/-- C1: for every invocation of `addRepository` that acquires the lock
successfully (and whose post-lock reload and write succeed), the registry is
reloaded fresh from disk after the lock is acquired, the candidate entry is
merged insert-or-replace by name, and the final file content equals `Update`
applied to the post-lock load — which reflects a concurrent commit
(`concurrentEdit`), not the pre-check load from step 1. -/
theorem addRepository_merges_postLock_load
    (name url username password : String) (home : Home)
    (certFile keyFile caFile : String) (noUpdate : Bool) (o : Oracle) (w : World)
    (idx : String)
    (h1 : o.load1Err = none)
    (h2 : (noUpdate && (loadedRegistry w.fs home.repositoryFile).has name) = false)
    (h3 : o.newRepoErr = none)
    (h4 : o.download = Except.ok idx)
    (h5 : tryLockContext lockTimeoutSeconds lockRetryIntervalSeconds o.lockFreeAt o.lockFault
            = (true, none))
    (h6 : o.load2Err = none)
    (h7 : o.writeErr = none) :
    (addRepository name url username password home certFile keyFile caFile noUpdate o w).result
        = Except.ok () ∧
    (addRepository name url username password home certFile keyFile caFile
          noUpdate o w).world.fs.read home.repositoryFile =
      some ((loadedRegistry (postLockFS o w.fs home) home.repositoryFile).update
        (candidateEntry name url username password home certFile keyFile caFile)) ∧
    ∀ g, o.concurrentEdit = some g →
      loadedRegistry (postLockFS o w.fs home) home.repositoryFile = g := by
  rw [addRepository_run_ok name url username password home certFile keyFile caFile noUpdate
    o w idx h1 h2 h3 h4 h5 h6 h7]
  refine ⟨rfl, ?_, fun g hg => postLockFS_of_edit o w.fs home g hg⟩
  exact writeFile_read
    ((loadedRegistry (postLockFS o w.fs home) home.repositoryFile).update
      (candidateEntry name url username password home certFile keyFile caFile))
    (postLockFS o w.fs home) home.repositoryFile 0o644

/-- Witness for C1 at a concrete input: empty starting registry, a concurrent
process commits `entryOld` before our lock; the final file is `Update` of the
post-lock load. -/
theorem addRepository_merges_postLock_load_witness :
    oEdit.load1Err = none ∧
    (false && (loadedRegistry wEmpty.fs homeW.repositoryFile).has "incubator") = false ∧
    oEdit.newRepoErr = none ∧
    oEdit.download = Except.ok "apiVersion: v1" ∧
    tryLockContext lockTimeoutSeconds lockRetryIntervalSeconds oEdit.lockFreeAt oEdit.lockFault
      = (true, none) ∧
    oEdit.load2Err = none ∧
    oEdit.writeErr = none ∧
    ((addRepository "incubator" "https://inc.example.com" "" "" homeW "" "" "" false oEdit
          wEmpty).result = Except.ok () ∧
      (addRepository "incubator" "https://inc.example.com" "" "" homeW "" "" "" false oEdit
          wEmpty).world.fs.read homeW.repositoryFile =
        some ((loadedRegistry (postLockFS oEdit wEmpty.fs homeW) homeW.repositoryFile).update
          (candidateEntry "incubator" "https://inc.example.com" "" "" homeW "" "" "")) ∧
      ∀ g, oEdit.concurrentEdit = some g →
        loadedRegistry (postLockFS oEdit wEmpty.fs homeW) homeW.repositoryFile = g) :=
  ⟨rfl, rfl, rfl, rfl, by decide, rfl, rfl,
    addRepository_merges_postLock_load "incubator" "https://inc.example.com" "" "" homeW
      "" "" "" false oEdit wEmpty "apiVersion: v1" rfl rfl rfl rfl (by decide) rfl rfl⟩

/-- C4: whenever the index download fails, `addRepository` aborts with the
"not a valid chart repository or cannot be reached" error and the world —
the registry file in particular — is exactly the starting one, regardless of
the prior registry state. -/
theorem addRepository_download_failure_aborts
    (name url username password : String) (home : Home)
    (certFile keyFile caFile : String) (noUpdate : Bool) (o : Oracle) (w : World)
    (m : String)
    (h1 : o.load1Err = none)
    (h2 : (noUpdate && (loadedRegistry w.fs home.repositoryFile).has name) = false)
    (h3 : o.newRepoErr = none)
    (h4 : o.download = Except.error m) :
    addRepository name url username password home certFile keyFile caFile noUpdate o w =
      ⟨.error (.notValidRepo (notValidRepoMsg url m)), w,
        [.loadRegistry, .downloadIndex]⟩ := by
  simp [addRepository, loadRepositoriesFile, h1, h2, h3, h4]

/-- Witness for C4 at a concrete input: the download fails with
"connection refused" against a registry that already has one entry. -/
theorem addRepository_download_failure_aborts_witness :
    oNet.load1Err = none ∧
    (false && (loadedRegistry wOne.fs homeW.repositoryFile).has "incubator") = false ∧
    oNet.newRepoErr = none ∧
    oNet.download = Except.error "connection refused" ∧
    addRepository "incubator" "https://inc.example.com" "" "" homeW "" "" "" false oNet wOne =
      ⟨.error (.notValidRepo (notValidRepoMsg "https://inc.example.com" "connection refused")),
        wOne, [.loadRegistry, .downloadIndex]⟩ :=
  ⟨rfl, rfl, rfl, rfl,
    addRepository_download_failure_aborts "incubator" "https://inc.example.com" "" "" homeW
      "" "" "" false oNet wOne "connection refused" rfl rfl rfl rfl⟩

/-- C6: with `noUpdate = true` and an entry with the given name already in the
initially loaded registry, `addRepository` fails with the duplicate-name error
and the world is exactly the starting one. -/
theorem addRepository_noUpdate_duplicate_rejected
    (name url username password : String) (home : Home)
    (certFile keyFile caFile : String) (o : Oracle) (w : World) (f0 : RepoFile)
    (h1 : o.load1Err = none)
    (hread : w.fs.read home.repositoryFile = some f0)
    (hhas : f0.has name = true) :
    addRepository name url username password home certFile keyFile caFile true o w =
      ⟨.error (.duplicateName (duplicateMsg name)), w, [.loadRegistry]⟩ := by
  have hload : loadedRegistry w.fs home.repositoryFile = f0 := by
    simp [loadedRegistry, hread]
  simp [addRepository, loadRepositoriesFile, h1, hload, hhas]

/-- Witness for C6 at a concrete input: re-adding the existing name "stable"
with `noUpdate = true`. -/
theorem addRepository_noUpdate_duplicate_rejected_witness :
    oBenign.load1Err = none ∧
    wOne.fs.read homeW.repositoryFile = some ⟨[entryOld]⟩ ∧
    RepoFile.has ⟨[entryOld]⟩ "stable" = true ∧
    addRepository "stable" "https://inc.example.com" "" "" homeW "" "" "" true oBenign wOne =
      ⟨.error (.duplicateName (duplicateMsg "stable")), wOne, [.loadRegistry]⟩ :=
  ⟨rfl, by decide, by decide,
    addRepository_noUpdate_duplicate_rejected "stable" "https://inc.example.com" "" "" homeW
      "" "" "" oBenign wOne ⟨[entryOld]⟩ rfl (by decide) (by decide)⟩

/-- C8: in every invocation, the network fetch happens strictly before the
lock call, and while the lock is held only registry reloads and registry
writes happen — the lock is never held across the fetch. -/
theorem addRepository_fetch_before_lock
    (name url username password : String) (home : Home)
    (certFile keyFile caFile : String) (noUpdate : Bool) (o : Oracle) (w : World) :
    fetchBeforeLockAttempt
        (addRepository name url username password home certFile keyFile caFile
          noUpdate o w).trace = true ∧
    lockedSectionOnlyReloadWrite
        (addRepository name url username password home certFile keyFile caFile
          noUpdate o w).trace false = true := by
  rcases addRepository_shape name url username password home certFile keyFile caFile
      noUpdate o w with
    ⟨m, hm, heq⟩ | ⟨hm, hd, heq⟩ | ⟨m, hm, heq⟩ | ⟨m, hm, heq⟩ |
    ⟨idx, e, hdl, hc, heq⟩ | ⟨idx, m, hdl, hc, hm, heq⟩ |
    ⟨idx, m, hdl, hc, hm, hw, heq⟩ | ⟨idx, hdl, hc, hm, hw, heq⟩ <;>
  rw [heq] <;> exact ⟨rfl, rfl⟩

/-- C2: in every invocation, registry writes happen only while the lock is
held; and whenever the lock call reports the lock as not acquired, the
operation returns an error, the registry file is untouched and no write event
ever occurs — it never silently proceeds unlocked. Under the modelled flock
contract a non-acquisition always carries an error, which is what the source
checks. -/
theorem addRepository_write_only_under_lock
    (name url username password : String) (home : Home)
    (certFile keyFile caFile : String) (noUpdate : Bool) (o : Oracle) (w : World) :
    writesOnlyWhileLocked
        (addRepository name url username password home certFile keyFile caFile
          noUpdate o w).trace false = true ∧
    ((tryLockContext lockTimeoutSeconds lockRetryIntervalSeconds o.lockFreeAt o.lockFault).1
        = false →
      (∃ e, (addRepository name url username password home certFile keyFile caFile
          noUpdate o w).result = Except.error e) ∧
      (addRepository name url username password home certFile keyFile caFile
          noUpdate o w).world.fs.read home.repositoryFile = w.fs.read home.repositoryFile ∧
      Event.writeRegistry ∉
        (addRepository name url username password home certFile keyFile caFile
          noUpdate o w).trace) := by
  rcases addRepository_shape name url username password home certFile keyFile caFile
      noUpdate o w with
    ⟨m, hm, heq⟩ | ⟨hm, hd, heq⟩ | ⟨m, hm, heq⟩ | ⟨m, hm, heq⟩ |
    ⟨idx, e, hdl, hc, heq⟩ | ⟨idx, m, hdl, hc, hm, heq⟩ |
    ⟨idx, m, hdl, hc, hm, hw, heq⟩ | ⟨idx, hdl, hc, hm, hw, heq⟩
  · rw [heq]
    refine ⟨rfl, fun _ => ⟨⟨_, rfl⟩, rfl, ?_⟩⟩
    show Event.writeRegistry ∉ [Event.loadRegistry]
    decide
  · rw [heq]
    refine ⟨rfl, fun _ => ⟨⟨_, rfl⟩, rfl, ?_⟩⟩
    show Event.writeRegistry ∉ [Event.loadRegistry]
    decide
  · rw [heq]
    refine ⟨rfl, fun _ => ⟨⟨_, rfl⟩, rfl, ?_⟩⟩
    show Event.writeRegistry ∉ [Event.loadRegistry]
    decide
  · rw [heq]
    refine ⟨rfl, fun _ => ⟨⟨_, rfl⟩, rfl, ?_⟩⟩
    show Event.writeRegistry ∉ [Event.loadRegistry, Event.downloadIndex]
    decide
  · rw [heq]
    refine ⟨rfl, fun _ => ⟨⟨e, rfl⟩, rfl, ?_⟩⟩
    show Event.writeRegistry ∉
      [Event.loadRegistry, Event.downloadIndex, Event.lockAttempted]
    decide
  · rw [heq]
    refine ⟨rfl, fun hfalse => ?_⟩
    rw [hc] at hfalse
    exact absurd hfalse (by decide)
  · rw [heq]
    refine ⟨rfl, fun hfalse => ?_⟩
    rw [hc] at hfalse
    exact absurd hfalse (by decide)
  · rw [heq]
    refine ⟨rfl, fun hfalse => ?_⟩
    rw [hc] at hfalse
    exact absurd hfalse (by decide)

/-- Witness for C2 at a concrete input where another process holds the lock
for 60 seconds: the lock is not acquired, the call errors, the registry file
is untouched and no write event occurs. -/
theorem addRepository_write_only_under_lock_witness :
    writesOnlyWhileLocked
        (addRepository "incubator" "https://inc.example.com" "" "" homeW "" "" "" false
          oTimeout wOne).trace false = true ∧
    (tryLockContext lockTimeoutSeconds lockRetryIntervalSeconds oTimeout.lockFreeAt
        oTimeout.lockFault).1 = false ∧
    ((∃ e, (addRepository "incubator" "https://inc.example.com" "" "" homeW "" "" "" false
        oTimeout wOne).result = Except.error e) ∧
      (addRepository "incubator" "https://inc.example.com" "" "" homeW "" "" "" false
          oTimeout wOne).world.fs.read homeW.repositoryFile =
        wOne.fs.read homeW.repositoryFile ∧
      Event.writeRegistry ∉
        (addRepository "incubator" "https://inc.example.com" "" "" homeW "" "" "" false
          oTimeout wOne).trace) :=
  ⟨(addRepository_write_only_under_lock "incubator" "https://inc.example.com" "" "" homeW
      "" "" "" false oTimeout wOne).1,
    by decide,
    (addRepository_write_only_under_lock "incubator" "https://inc.example.com" "" "" homeW
      "" "" "" false oTimeout wOne).2 (by decide)⟩

/-- C3: the lock wait is bounded by the constants 30 seconds total and a
1-second retry interval, and when the lock is held externally at least that
long the call fails with the context-deadline error, leaving the registry file
(indeed the whole starting file system) unmodified. -/
theorem addRepository_lock_timeout_bound :
    lockTimeoutSeconds = 30 ∧ lockRetryIntervalSeconds = 1 ∧
    ∀ (name url username password : String) (home : Home)
      (certFile keyFile caFile : String) (noUpdate : Bool) (o : Oracle) (w : World)
      (idx : String),
      o.load1Err = none →
      (noUpdate && (loadedRegistry w.fs home.repositoryFile).has name) = false →
      o.newRepoErr = none →
      o.download = Except.ok idx →
      o.lockFault = none →
      lockTimeoutSeconds ≤ o.lockFreeAt →
      addRepository name url username password home certFile keyFile caFile noUpdate o w =
        ⟨.error Err.contextDeadlineExceeded,
          ⟨w.fs, (home.cacheIndex name, idx) :: w.cache⟩,
          [.loadRegistry, .downloadIndex, .lockAttempted]⟩ := by
  refine ⟨rfl, rfl, ?_⟩
  intro name url username password home certFile keyFile caFile noUpdate o w idx
    h1 h2 h3 h4 hf hfree
  have hc : tryLockContext lockTimeoutSeconds lockRetryIntervalSeconds o.lockFreeAt o.lockFault
      = (false, some Err.contextDeadlineExceeded) := by
    rw [hf]
    exact tryLockContext_timeout lockTimeoutSeconds lockRetryIntervalSeconds o.lockFreeAt hfree
  simp [addRepository, addRepositoryLocked, loadRepositoriesFile, h1, h2, h3, h4, hc]

/-- Witness for C3 at a concrete input: the external holder keeps the lock for
60 seconds, past the 30-second bound. -/
theorem addRepository_lock_timeout_bound_witness :
    oTimeout.load1Err = none ∧
    (false && (loadedRegistry wOne.fs homeW.repositoryFile).has "incubator") = false ∧
    oTimeout.newRepoErr = none ∧
    oTimeout.download = Except.ok "apiVersion: v1" ∧
    oTimeout.lockFault = none ∧
    lockTimeoutSeconds ≤ oTimeout.lockFreeAt ∧
    addRepository "incubator" "https://inc.example.com" "" "" homeW "" "" "" false
        oTimeout wOne =
      ⟨.error Err.contextDeadlineExceeded,
        ⟨wOne.fs, (homeW.cacheIndex "incubator", "apiVersion: v1") :: wOne.cache⟩,
        [.loadRegistry, .downloadIndex, .lockAttempted]⟩ :=
  ⟨rfl, rfl, rfl, rfl, rfl, by decide,
    addRepository_lock_timeout_bound.2.2 "incubator" "https://inc.example.com" "" "" homeW
      "" "" "" false oTimeout wOne "apiVersion: v1" rfl rfl rfl rfl rfl (by decide)⟩

/-- C5: the registry write is write-to-temp-then-rename: the temp phase leaves
the target file exactly as it was, the completed write makes the new content
fully present, and an `addRepository` run whose write is interrupted after the
temp phase (before the rename) leaves the registry file unchanged while
returning the write error. -/
theorem writeFile_temp_then_rename_atomic :
    (∀ (fs : FS) (f : RepoFile) (p : String),
      (writeFileTempStep fs f p).read p = fs.read p) ∧
    (∀ (fs : FS) (f : RepoFile) (p : String) (perm : Nat),
      (f.writeFile fs p perm).read p = some f) ∧
    (∀ (name url username password : String) (home : Home)
      (certFile keyFile caFile : String) (noUpdate : Bool) (o : Oracle) (w : World)
      (idx m : String),
      o.load1Err = none →
      (noUpdate && (loadedRegistry w.fs home.repositoryFile).has name) = false →
      o.newRepoErr = none →
      o.download = Except.ok idx →
      tryLockContext lockTimeoutSeconds lockRetryIntervalSeconds o.lockFreeAt o.lockFault
        = (true, none) →
      o.concurrentEdit = none →
      o.load2Err = none →
      o.writeErr = some m →
      (addRepository name url username password home certFile keyFile caFile
          noUpdate o w).result = Except.error (Err.write m) ∧
      (addRepository name url username password home certFile keyFile caFile
          noUpdate o w).world.fs.read home.repositoryFile = w.fs.read home.repositoryFile) := by
  refine ⟨fun fs f p => writeFileTempStep_read fs f p,
    fun fs f p perm => writeFile_read f fs p perm, ?_⟩
  intro name url username password home certFile keyFile caFile noUpdate o w idx m
    h1 h2 h3 h4 h5 hce h6 hw
  rcases addRepository_shape name url username password home certFile keyFile caFile
      noUpdate o w with
    ⟨m1, hm, heq⟩ | ⟨hm, hd, heq⟩ | ⟨m1, hm, heq⟩ | ⟨m1, hm, heq⟩ |
    ⟨idx1, e, hdl, hc, heq⟩ | ⟨idx1, m1, hdl, hc, hm, heq⟩ |
    ⟨idx1, m1, hdl, hc, hm, hw1, heq⟩ | ⟨idx1, hdl, hc, hm, hw1, heq⟩
  · rw [h1] at hm; exact Option.noConfusion hm
  · rw [h2] at hd; exact Bool.noConfusion hd
  · rw [h3] at hm; exact Option.noConfusion hm
  · rw [h4] at hm; exact Except.noConfusion hm
  · rw [h5] at hc; simp at hc
  · rw [h6] at hm; exact Option.noConfusion hm
  · rw [hw] at hw1
    injection hw1 with hm1
    subst hm1
    rw [heq]
    refine ⟨rfl, Eq.trans (writeFileTempStep_read (postLockFS o w.fs home)
      ((loadedRegistry (postLockFS o w.fs home) home.repositoryFile).update
        (candidateEntry name url username password home certFile keyFile caFile))
      home.repositoryFile) ?_⟩
    rw [postLockFS_of_no_edit o w.fs home hce]
  · rw [hw] at hw1; exact Option.noConfusion hw1

/-- Witness for C5 at concrete inputs: the temp phase preserves the target,
the full write installs the new content, and an interrupted run leaves the
registry file as it was. -/
theorem writeFile_temp_then_rename_atomic_witness :
    (writeFileTempStep fsOne ⟨[]⟩ homeW.repositoryFile).read homeW.repositoryFile
        = fsOne.read homeW.repositoryFile ∧
    ((⟨[entryOld]⟩ : RepoFile).writeFile fsOne homeW.repositoryFile 0o644).read
        homeW.repositoryFile = some ⟨[entryOld]⟩ ∧
    oWriteFail.writeErr = some "disk full" ∧
    ((addRepository "incubator" "https://inc.example.com" "" "" homeW "" "" "" false
          oWriteFail wOne).result = Except.error (Err.write "disk full") ∧
      (addRepository "incubator" "https://inc.example.com" "" "" homeW "" "" "" false
          oWriteFail wOne).world.fs.read homeW.repositoryFile =
        wOne.fs.read homeW.repositoryFile) :=
  ⟨writeFile_temp_then_rename_atomic.1 fsOne ⟨[]⟩ homeW.repositoryFile,
    writeFile_temp_then_rename_atomic.2.1 fsOne ⟨[entryOld]⟩ homeW.repositoryFile 0o644,
    rfl,
    writeFile_temp_then_rename_atomic.2.2 "incubator" "https://inc.example.com" "" "" homeW
      "" "" "" false oWriteFail wOne "apiVersion: v1" "disk full"
      rfl rfl rfl rfl (by decide) rfl rfl rfl⟩

/-- C7: loading a missing registry file yields the empty registry rather than
an error, and a successful `addRepository` against a home with no registry
file creates one containing exactly the new entry. -/
theorem addRepository_first_run_creates_registry :
    (∀ (fs : FS) (p : String), fs.read p = none →
      loadRepositoriesFile none fs p = Except.ok ⟨[]⟩) ∧
    (∀ (name url username password : String) (home : Home)
      (certFile keyFile caFile : String) (noUpdate : Bool) (o : Oracle) (w : World)
      (idx : String),
      w.fs.read home.repositoryFile = none →
      o.load1Err = none →
      o.newRepoErr = none →
      o.download = Except.ok idx →
      tryLockContext lockTimeoutSeconds lockRetryIntervalSeconds o.lockFreeAt o.lockFault
        = (true, none) →
      o.concurrentEdit = none →
      o.load2Err = none →
      o.writeErr = none →
      (addRepository name url username password home certFile keyFile caFile
          noUpdate o w).result = Except.ok () ∧
      (addRepository name url username password home certFile keyFile caFile
          noUpdate o w).world.fs.read home.repositoryFile =
        some ⟨[candidateEntry name url username password home certFile keyFile caFile]⟩) := by
  constructor
  · intro fs p h
    simp [loadRepositoriesFile, loadedRegistry, h]
  · intro name url username password home certFile keyFile caFile noUpdate o w idx
      hread h1 h3 h4 h5 hce h6 h7
    have hempty : loadedRegistry w.fs home.repositoryFile = ⟨[]⟩ := by
      simp [loadedRegistry, hread]
    have h2 : (noUpdate && (loadedRegistry w.fs home.repositoryFile).has name) = false := by
      rw [hempty]
      simp [RepoFile.has]
    rw [addRepository_run_ok name url username password home certFile keyFile caFile noUpdate
      o w idx h1 h2 h3 h4 h5 h6 h7]
    refine ⟨rfl, ?_⟩
    rw [postLockFS_of_no_edit o w.fs home hce, hempty]
    exact writeFile_read
      (RepoFile.update ⟨[]⟩ (candidateEntry name url username password home certFile keyFile caFile))
      w.fs home.repositoryFile 0o644

/-- Witness for C7 at a concrete input: a home with no registry file; the run
succeeds and the created file holds exactly the new entry. -/
theorem addRepository_first_run_creates_registry_witness :
    wEmpty.fs.read homeW.repositoryFile = none ∧
    oBenign.load1Err = none ∧
    oBenign.newRepoErr = none ∧
    oBenign.download = Except.ok "apiVersion: v1" ∧
    tryLockContext lockTimeoutSeconds lockRetryIntervalSeconds oBenign.lockFreeAt
      oBenign.lockFault = (true, none) ∧
    oBenign.concurrentEdit = none ∧
    oBenign.load2Err = none ∧
    oBenign.writeErr = none ∧
    ((addRepository "stable" "https://charts.example.com" "" "" homeW "" "" "" true oBenign
        wEmpty).result = Except.ok () ∧
      (addRepository "stable" "https://charts.example.com" "" "" homeW "" "" "" true oBenign
          wEmpty).world.fs.read homeW.repositoryFile =
        some ⟨[candidateEntry "stable" "https://charts.example.com" "" "" homeW "" "" ""]⟩) :=
  ⟨rfl, rfl, rfl, rfl, by decide, rfl, rfl, rfl,
    addRepository_first_run_creates_registry.2 "stable" "https://charts.example.com" "" ""
      homeW "" "" "" true oBenign wEmpty "apiVersion: v1" rfl rfl rfl rfl (by decide)
      rfl rfl rfl⟩

/-- Updating twice with the same entry leaves exactly that entry under its
name, provided the name was not duplicated beforehand. -/
theorem filter_update_update (f : RepoFile) (c : Entry)
    (hcount : (f.repositories.filter (fun x => x.name == c.name)).length ≤ 1) :
    ((f.update c).update c).repositories.filter (fun x => x.name == c.name) = [c] := by
  have h1 := updateList_filter c f.repositories hcount
  apply updateList_filter
  show (List.filter (fun x => x.name == c.name) (updateList f.repositories c)).length ≤ 1
  rw [h1]
  simp

/-- C9: calling `addRepository` twice in sequence with identical arguments and
`noUpdate = false` succeeds and leaves the registry with exactly one entry for
that name, holding the (identical) second call's values — the second call
replaces rather than duplicates the first. -/
theorem addRepository_add_twice_single_entry
    (name url username password : String) (home : Home)
    (certFile keyFile caFile : String) (o1 o2 : Oracle) (w : World) (idx1 idx2 : String)
    (hcount : ((loadedRegistry w.fs home.repositoryFile).repositories.filter
        (fun x => x.name == name)).length ≤ 1)
    (h11 : o1.load1Err = none) (h13 : o1.newRepoErr = none)
    (h14 : o1.download = Except.ok idx1)
    (h15 : tryLockContext lockTimeoutSeconds lockRetryIntervalSeconds o1.lockFreeAt
        o1.lockFault = (true, none))
    (h1c : o1.concurrentEdit = none) (h16 : o1.load2Err = none) (h17 : o1.writeErr = none)
    (h21 : o2.load1Err = none) (h23 : o2.newRepoErr = none)
    (h24 : o2.download = Except.ok idx2)
    (h25 : tryLockContext lockTimeoutSeconds lockRetryIntervalSeconds o2.lockFreeAt
        o2.lockFault = (true, none))
    (h2c : o2.concurrentEdit = none) (h26 : o2.load2Err = none) (h27 : o2.writeErr = none) :
    (addRepository name url username password home certFile keyFile caFile false o2
        (addRepository name url username password home certFile keyFile caFile false o1
          w).world).result = Except.ok () ∧
    (loadedRegistry
        (addRepository name url username password home certFile keyFile caFile false o2
          (addRepository name url username password home certFile keyFile caFile false o1
            w).world).world.fs
        home.repositoryFile).repositories.filter (fun x => x.name == name) =
      [candidateEntry name url username password home certFile keyFile caFile] := by
  have hb1 : ((false : Bool) &&
      (loadedRegistry w.fs home.repositoryFile).has name) = false := rfl
  have e1 := addRepository_run_ok name url username password home certFile keyFile caFile
    false o1 w idx1 h11 hb1 h13 h14 h15 h16 h17
  have hr1 : (addRepository name url username password home certFile keyFile caFile false o1
      w).world.fs.read home.repositoryFile
      = some ((loadedRegistry w.fs home.repositoryFile).update
          (candidateEntry name url username password home certFile keyFile caFile)) := by
    rw [e1, postLockFS_of_no_edit o1 w.fs home h1c]
    exact writeFile_read ((loadedRegistry w.fs home.repositoryFile).update
      (candidateEntry name url username password home certFile keyFile caFile))
      w.fs home.repositoryFile 0o644
  have hload1 : loadedRegistry (addRepository name url username password home certFile
      keyFile caFile false o1 w).world.fs home.repositoryFile
      = (loadedRegistry w.fs home.repositoryFile).update
          (candidateEntry name url username password home certFile keyFile caFile) := by
    simp [loadedRegistry, hr1]
  have hb2 : ((false : Bool) && (loadedRegistry (addRepository name url username password
      home certFile keyFile caFile false o1 w).world.fs home.repositoryFile).has name)
      = false := rfl
  have e2 := addRepository_run_ok name url username password home certFile keyFile caFile
    false o2 ((addRepository name url username password home certFile keyFile caFile false
      o1 w).world) idx2 h21 hb2 h23 h24 h25 h26 h27
  have hr2 : (addRepository name url username password home certFile keyFile caFile false o2
      (addRepository name url username password home certFile keyFile caFile false o1
        w).world).world.fs.read home.repositoryFile
      = some (((loadedRegistry w.fs home.repositoryFile).update
            (candidateEntry name url username password home certFile keyFile caFile)).update
          (candidateEntry name url username password home certFile keyFile caFile)) := by
    rw [e2, postLockFS_of_no_edit o2 _ home h2c, hload1]
    exact writeFile_read (((loadedRegistry w.fs home.repositoryFile).update
        (candidateEntry name url username password home certFile keyFile caFile)).update
      (candidateEntry name url username password home certFile keyFile caFile))
      _ home.repositoryFile 0o644
  have hload2 : loadedRegistry (addRepository name url username password home certFile
      keyFile caFile false o2 (addRepository name url username password home certFile
        keyFile caFile false o1 w).world).world.fs home.repositoryFile
      = ((loadedRegistry w.fs home.repositoryFile).update
            (candidateEntry name url username password home certFile keyFile caFile)).update
          (candidateEntry name url username password home certFile keyFile caFile) := by
    simp [loadedRegistry, hr2]
  refine ⟨by rw [e2], ?_⟩
  rw [hload2]
  exact filter_update_update (loadedRegistry w.fs home.repositoryFile)
    (candidateEntry name url username password home certFile keyFile caFile) hcount

/-- Witness for C9 at a concrete input: adding "stable" twice to an initially
empty registry leaves exactly one "stable" entry with the second call's
values. -/
theorem addRepository_add_twice_single_entry_witness :
    ((loadedRegistry wEmpty.fs homeW.repositoryFile).repositories.filter
        (fun x => x.name == "stable")).length ≤ 1 ∧
    ((addRepository "stable" "https://charts.example.com" "" "" homeW "" "" "" false oBenign
        (addRepository "stable" "https://charts.example.com" "" "" homeW "" "" "" false
          oBenign wEmpty).world).result = Except.ok () ∧
      (loadedRegistry
          (addRepository "stable" "https://charts.example.com" "" "" homeW "" "" "" false
            oBenign
            (addRepository "stable" "https://charts.example.com" "" "" homeW "" "" "" false
              oBenign wEmpty).world).world.fs
          homeW.repositoryFile).repositories.filter (fun x => x.name == "stable") =
        [candidateEntry "stable" "https://charts.example.com" "" "" homeW "" "" ""]) :=
  ⟨by decide,
    addRepository_add_twice_single_entry "stable" "https://charts.example.com" "" "" homeW
      "" "" "" oBenign oBenign wEmpty "apiVersion: v1" "apiVersion: v1" (by decide)
      rfl rfl rfl (by decide) rfl rfl rfl rfl rfl rfl (by decide) rfl rfl rfl⟩

/-- C10: when the index download succeeds but the operation later fails (lock
error, post-lock reload error, or write error), the downloaded index stays in
the cache — the cache side effect is never rolled back — while the registry
file is left unchanged. -/
theorem addRepository_cache_persists_on_failure
    (name url username password : String) (home : Home)
    (certFile keyFile caFile : String) (noUpdate : Bool) (o : Oracle) (w : World)
    (idx : String)
    (h1 : o.load1Err = none)
    (h2 : (noUpdate && (loadedRegistry w.fs home.repositoryFile).has name) = false)
    (h3 : o.newRepoErr = none)
    (h4 : o.download = Except.ok idx)
    (hce : o.concurrentEdit = none)
    (hfail : (addRepository name url username password home certFile keyFile caFile
        noUpdate o w).result ≠ Except.ok ()) :
    (addRepository name url username password home certFile keyFile caFile
        noUpdate o w).world.cache = (home.cacheIndex name, idx) :: w.cache ∧
    (addRepository name url username password home certFile keyFile caFile
        noUpdate o w).world.fs.read home.repositoryFile = w.fs.read home.repositoryFile := by
  rcases addRepository_shape name url username password home certFile keyFile caFile
      noUpdate o w with
    ⟨m1, hm, heq⟩ | ⟨hm, hd, heq⟩ | ⟨m1, hm, heq⟩ | ⟨m1, hm, heq⟩ |
    ⟨idx1, e, hdl, hc, heq⟩ | ⟨idx1, m1, hdl, hc, hm, heq⟩ |
    ⟨idx1, m1, hdl, hc, hm, hw1, heq⟩ | ⟨idx1, hdl, hc, hm, hw1, heq⟩
  · rw [h1] at hm; exact Option.noConfusion hm
  · rw [h2] at hd; exact Bool.noConfusion hd
  · rw [h3] at hm; exact Option.noConfusion hm
  · rw [h4] at hm; exact Except.noConfusion hm
  · rw [h4] at hdl
    injection hdl with hi
    subst hi
    rw [heq]
    exact ⟨rfl, rfl⟩
  · rw [h4] at hdl
    injection hdl with hi
    subst hi
    rw [heq]
    refine ⟨rfl, ?_⟩
    show (postLockFS o w.fs home).read home.repositoryFile = w.fs.read home.repositoryFile
    rw [postLockFS_of_no_edit o w.fs home hce]
  · rw [h4] at hdl
    injection hdl with hi
    subst hi
    rw [heq]
    refine ⟨rfl, Eq.trans (writeFileTempStep_read (postLockFS o w.fs home)
      ((loadedRegistry (postLockFS o w.fs home) home.repositoryFile).update
        (candidateEntry name url username password home certFile keyFile caFile))
      home.repositoryFile) ?_⟩
    rw [postLockFS_of_no_edit o w.fs home hce]
  · rw [heq] at hfail
    exact absurd rfl hfail

/-- Witness for C10 at a concrete input: the write is interrupted; the cache
keeps the downloaded index while the registry file is unchanged. -/
theorem addRepository_cache_persists_on_failure_witness :
    oWriteFail.load1Err = none ∧
    (false && (loadedRegistry wOne.fs homeW.repositoryFile).has "incubator") = false ∧
    oWriteFail.newRepoErr = none ∧
    oWriteFail.download = Except.ok "apiVersion: v1" ∧
    oWriteFail.concurrentEdit = none ∧
    (addRepository "incubator" "https://inc.example.com" "" "" homeW "" "" "" false
        oWriteFail wOne).result ≠ Except.ok () ∧
    ((addRepository "incubator" "https://inc.example.com" "" "" homeW "" "" "" false
        oWriteFail wOne).world.cache =
      (homeW.cacheIndex "incubator", "apiVersion: v1") :: wOne.cache ∧
      (addRepository "incubator" "https://inc.example.com" "" "" homeW "" "" "" false
          oWriteFail wOne).world.fs.read homeW.repositoryFile =
        wOne.fs.read homeW.repositoryFile) :=
  ⟨rfl, rfl, rfl, rfl, rfl, fun hk => Except.noConfusion hk,
    addRepository_cache_persists_on_failure "incubator" "https://inc.example.com" "" ""
      homeW "" "" "" false oWriteFail wOne "apiVersion: v1" rfl rfl rfl rfl rfl
      (fun hk => Except.noConfusion hk)⟩
